import Mathlib

/-
A verification development for the CRM backend (backend/server.py).
The spreadsheet import pipeline, the contact search query, the follow-up
listing endpoints, the follow-up alert sweep, the demo watched update and
the contact creation path are embedded as executable Lean functions over
explicit collection states, and the behavioural claims about them are
settled as theorems below.
-/

namespace CRM

/-! ## String primitives

Python level string operations, modelled on the character list underlying
a Lean string so that every definition evaluates inside the kernel.
Comparison of ISO-8601 timestamp strings, as done by both Python and the
document store, is lexicographic on code points. -/

/-- Python str.lower, applied code-point-wise. -/
def lowerStr (s : String) : String := ⟨s.data.map Char.toLower⟩

/-- Python str.strip: leading and trailing whitespace removed. -/
def trimStr (s : String) : String :=
  ⟨((s.data.dropWhile Char.isWhitespace).reverse.dropWhile Char.isWhitespace).reverse⟩

/-- Python str.replace with a single-character pattern and replacement. -/
def replChar (a b : Char) (s : String) : String :=
  ⟨s.data.map (fun c => if c = a then b else c)⟩

/-- Python slicing s[:n], counted in characters. -/
def takeStr (n : Nat) (s : String) : String := ⟨s.data.take n⟩

/-- Code-point sequence of a string; string comparison in the embedded code
is the lexicographic order on this sequence. -/
def strKey (s : String) : List Nat := s.data.map Char.toNat

/-- Lexicographic strict order on strings (Python string less-than). -/
def strLt (a b : String) : Prop := strKey a < strKey b

/-- Lexicographic order on strings (Python string less-or-equal). -/
def strLe (a b : String) : Prop := strKey a ≤ strKey b

instance (a b : String) : Decidable (strLt a b) := by unfold strLt; infer_instance

instance (a b : String) : Decidable (strLe a b) := by unfold strLe; infer_instance

/-- The needle occurs as a contiguous substring of the haystack. -/
def containsSub : List Char → List Char → Bool
  | needle, [] => needle.isEmpty
  | needle, c :: t => needle.isPrefixOf (c :: t) || containsSub needle t

/-- Regex metacharacters of the Mongo engine.  The search endpoint passes
the raw user term through unescaped, so a term containing one of these is
interpreted as a pattern, not as a literal substring. -/
def regexMetachars : List Char :=
  ['.', '^', '$', '*', '+', '?', '(', ')', '[', ']', '\x7b', '\x7d', '\\', '|']

/-- The search term contains no regex metacharacter. -/
def regexFree (s : String) : Prop := ∀ c ∈ s.data, c ∉ regexMetachars

instance (s : String) : Decidable (regexFree s) := by unfold regexFree; infer_instance

/-- One pattern character against one subject character, case folded: the
dot metacharacter matches any character, every other pattern character
matches itself up to ASCII case. -/
def charMatchesI (p c : Char) : Bool := p == '.' || p.toLower == c.toLower

/-- The pattern matches some prefix of the subject. -/
def matchHere : List Char → List Char → Bool
  | [], _ => true
  | _ :: _, [] => false
  | p :: ps, c :: cs => charMatchesI p c && matchHere ps cs

/-- Unanchored search of the pattern inside the subject, as a Mongo regex
find condition performs. -/
def regexSearch : List Char → List Char → Bool
  | pat, [] => pat.isEmpty
  | pat, c :: t => matchHere pat (c :: t) || regexSearch pat t

/-- A Mongo regex condition with options i on the raw search term.  The
embedded engine covers the fragment this development evaluates: literal
characters matched up to case and the dot metacharacter; on terms free of
every metacharacter it coincides with case-insensitive substring
containment (theorem regexMatchI_eq_containsCI below). -/
def regexMatchI (pattern subject : String) : Bool :=
  regexSearch pattern.data subject.data

/-- The spec wording of the search contract: the term occurs as a
case-insensitive substring of the subject. -/
def containsCI (term subject : String) : Bool :=
  containsSub (lowerStr term).data (lowerStr subject).data

/-! ## Data model

Documents of the contacts, followups and demos collections, as produced by
the corresponding pydantic models in server.py.  The server generated uuid
identifiers are opaque input strings here; fields never touched by any
verified claim (last_call_at of Contact) are omitted. -/

/-- A document of the contacts collection (model Contact). -/
structure Contact where
  id : String
  phone : String
  customer_name : Option String
  status : String
  data : List (String × String)
  created_at : String
deriving Repr, DecidableEq

/-- A document of the followups collection (model FollowUp). -/
structure FollowUp where
  id : String
  contact_id : String
  user_id : String
  user_email : String
  follow_up_date : String
  notes : Option String
  status : String
  created_at : String
  notified : Bool
deriving Repr, DecidableEq

/-- A document of the demos collection (model Demo). -/
structure Demo where
  id : String
  contact_id : String
  user_id : String
  user_email : String
  given_at : String
  watched : Bool
  watched_at : Option String
  notes : Option String
  created_at : String
  updated_at : String
deriving Repr, DecidableEq

/-! ## Association list and store helpers -/

/-- Python dict assignment d[k] = v on an association list: the first
binding of k is replaced in place, otherwise the pair is appended. -/
def insertA : List (String × String) → String → String → List (String × String)
  | [], k, v => [(k, v)]
  | (k0, v0) :: rest, k, v =>
      if k0 = k then (k, v) :: rest else (k0, v0) :: insertA rest k v

/-- Python dict.pop(k, default), projection to the remaining bindings. -/
def eraseA : List (String × String) → String → List (String × String)
  | [], _ => []
  | (k0, v0) :: rest, k => if k0 = k then rest else (k0, v0) :: eraseA rest k

/-- Mongo update_one: rewrite the first document matching p through g. -/
def updateFirst (p : α → Bool) (g : α → α) : List α → List α
  | [] => []
  | x :: xs => if p x then g x :: xs else x :: updateFirst p g xs

/-! ## Import Reconciler (POST /api/contacts/import, server.py 288-454) -/

/-- The textual cell values that the dataframe replace pass turns into NA
(server.py line 327). -/
def emptyVals : List String :=
  ["", " ", "N/A", "n/a", "NA", "na", "NULL", "null", "None", "none"]

/-- The parsed spreadsheet: header names and data rows with cells aligned
positionally with the headers.  Reading with dtype=str and na_filter=False
yields every cell as a text string. -/
structure Sheet where
  columns : List String
  rows : List (List String)
deriving Repr, DecidableEq

/-- df.columns.str.strip() (server.py line 316). -/
def stripCols (sh : Sheet) : Sheet := ⟨sh.columns.map trimStr, sh.rows⟩

/-- The raw cell of a row under a column name. -/
def cellRaw (cols : List String) (row : List String) (c : String) : Option String :=
  (cols.findIdx? (fun x => x = c)).bind (fun i => row[i]?)

/-- The cell after the empty-value replacement pass: an NA cell is none. -/
def cell (cols : List String) (row : List String) (c : String) : Option String :=
  match cellRaw cols row c with
  | none => none
  | some v => if v ∈ emptyVals then none else some v

/-- Companion of dropDuplicatesOn carrying the keys seen so far. -/
def dedupeAux (key : List String → Option String) (seen : List (Option String)) :
    List (List String) → List (List String)
  | [] => []
  | r :: rs =>
      if key r ∈ seen then dedupeAux key seen rs
      else r :: dedupeAux key (key r :: seen) rs

/-- drop_duplicates(subset=[phone_column], keep="first") (server.py
line 336); pandas treats NA cells of the subset as equal to one another. -/
def dropDuplicatesOn (key : List String → Option String) (rows : List (List String)) :
    List (List String) := dedupeAux key [] rows

/-- mapping.get(f) combined with the guards the code applies before using a
designated column: Python truthiness of the name and membership in the
dataframe columns. -/
def colOf (mapping : List (String × String)) (cols : List String) (f : String) :
    Option String :=
  match List.lookup f mapping with
  | none => none
  | some c => if c ≠ "" ∧ c ∈ cols then some c else none

/-- The literal strings dropped by the per-row cleaner after lowering
(server.py line 359). -/
def junkVals : List String := ["nan", "none", "null", "na", "n/a"]

/-- One mapped cell as stored into contact_data, or none when a guard skips
it (server.py lines 355-364).  The utf-8 re-encode with errors=ignore is
the identity on well-formed strings. -/
def cleanCell (cols : List String) (row : List String) (ec : String) : Option String :=
  match cell cols row ec with
  | none => none
  | some v =>
      let sv := trimStr v
      if sv = "" ∨ lowerStr sv ∈ junkVals then none else some sv

/-- contact_data after the mapping loop (server.py lines 350-364): every
mapped field whose column exists, except phone, phone2 and customer_name. -/
def mappedData (mapping : List (String × String)) (cols : List String)
    (row : List String) : List (String × String) :=
  mapping.foldl
    (fun acc kv =>
      if kv.2 ∈ cols ∧ kv.1 ∉ (["phone", "phone2", "customer_name"] : List String) then
        match cleanCell cols row kv.2 with
        | none => acc
        | some sv => insertA acc kv.1 sv
      else acc)
    []

/-- contact_data after the secondary phone re-insertion (server.py
lines 381-385): a non-NA phone2 cell is stored, stripped, under the key
phone2 with no further cleaning. -/
def rowData (mapping : List (String × String)) (cols : List String)
    (row : List String) : List (String × String) :=
  match colOf mapping cols "phone2" with
  | none => mappedData mapping cols row
  | some c2 =>
      match cell cols row c2 with
      | none => mappedData mapping cols row
      | some v => insertA (mappedData mapping cols row) "phone2" (trimStr v)

/-- The primary phone cell of the row, stripped (server.py lines 366-371). -/
def rowPhoneCell (mapping : List (String × String)) (cols : List String)
    (row : List String) : Option String :=
  (colOf mapping cols "phone").bind (fun pc => (cell cols row pc).map trimStr)

/-- The customer name cell of the row, stripped (server.py lines 373-378). -/
def rowCustomer (mapping : List (String × String)) (cols : List String)
    (row : List String) : Option String :=
  (colOf mapping cols "customer_name").bind (fun cc => (cell cols row cc).map trimStr)

/-- The shop name slug used for the synthesized phone (server.py line 391):
spaces and hyphens replaced by underscores, truncated to 15 characters. -/
def slugShop (s : String) : String :=
  takeStr 15 (replChar '-' '_' (replChar ' ' '_' s))

/-- The synthesized phone for a row without one (server.py lines 388-394);
n is the 1-based processing sequence number of the row. -/
def synthPhone (dat : List (String × String)) (n : Nat) : String :=
  match List.lookup "shop_name" dat with
  | some s =>
      if s ≠ "" ∧ trimStr s ≠ "" then slugShop s ++ "_" ++ toString n
      else "contact_" ++ toString n
  | none => "contact_" ++ toString n

/-- The resolved phone of the row: the stripped phone cell when truthy,
otherwise the synthesized identifier (server.py lines 366-394). -/
def rowPhone (mapping : List (String × String)) (cols : List String)
    (row : List String) (n : Nat) (dat : List (String × String)) : String :=
  match rowPhoneCell mapping cols row with
  | some p => if p ≠ "" then p else synthPhone dat n
  | none => synthPhone dat n

/-- The state threaded through the import loop: the processing counters and
the contacts collection. -/
structure LoopState where
  processed : Nat
  imported : Nat
  skipped : Nat
  db_dup : Nat
  empty_data : Nat
  store : List Contact
deriving Repr, DecidableEq

/-- The per-row loop of import_contacts (server.py lines 348-420): database
duplicate check, empty-data check, then insertion with status popped out of
the attribute map.  Inserted contacts carry the request time now as their
timestamp and an opaque (empty) id. -/
def importLoop (mapping : List (String × String)) (cols : List String) (now : String) :
    List (List String) → LoopState → LoopState
  | [], st => st
  | row :: rest, st =>
      let n := st.processed + 1
      let dat := rowData mapping cols row
      let phone := rowPhone mapping cols row n dat
      if st.store.any (fun c => c.phone == phone) then
        importLoop mapping cols now rest
          { st with processed := n, skipped := st.skipped + 1, db_dup := st.db_dup + 1 }
      else if dat.isEmpty then
        importLoop mapping cols now rest
          { st with processed := n, skipped := st.skipped + 1,
                    empty_data := st.empty_data + 1 }
      else
        importLoop mapping cols now rest
          { st with processed := n, imported := st.imported + 1,
                    store := st.store ++
                      [⟨"", phone, rowCustomer mapping cols row,
                        (List.lookup "status" dat).getD "None",
                        eraseA dat "status", now⟩] }

/-- The rows remaining after the in-file dedup pass (server.py
lines 316-340): header strip, then drop_duplicates on the designated phone
column when one is mapped and present. -/
def dedupedRows (mapping : List (String × String)) (sheet0 : Sheet) :
    List (List String) :=
  let sheet := stripCols sheet0
  match colOf mapping sheet.columns "phone" with
  | some pc => dropDuplicatesOn (fun r => cell sheet.columns r pc) sheet.rows
  | none => sheet.rows

/-- The accounting counters returned by the import endpoint (server.py
lines 441-450). -/
structure ImportCounters where
  imported : Nat
  skipped : Nat
  file_duplicates_removed : Nat
  db_duplicates : Nat
  empty_data_skipped : Nat
  total_processed : Nat
  original_excel_rows : Nat
deriving Repr, DecidableEq

/-- Everything the import endpoint does after a successful parse (server.py
lines 316-450). -/
def import_core (mapping : List (String × String)) (sheet0 : Sheet) (now : String)
    (store : List Contact) : ImportCounters × List Contact :=
  let rows := dedupedRows mapping sheet0
  let fin := importLoop mapping (stripCols sheet0).columns now rows ⟨0, 0, 0, 0, 0, store⟩
  (⟨fin.imported, fin.skipped, sheet0.rows.length - rows.length, fin.db_dup,
    fin.empty_data, fin.processed, sheet0.rows.length⟩, fin.store)

/-- The chain of pandas read_excel attempts (openpyxl, then xlrd, then the
default engine), each modelled by its optional result; the endpoint uses
the first success (server.py lines 307-313). -/
def parse_excel (p1 p2 p3 : Option Sheet) : Option Sheet := p1 <|> (p2 <|> p3)

/-- POST /api/contacts/import: parse with engine fallbacks, then run the
core; when every engine fails the request aborts with HTTP 400 before any
write, leaving the collection as it was (server.py lines 288-454). -/
def import_contacts (p1 p2 p3 : Option Sheet) (mapping : List (String × String))
    (now : String) (store : List Contact) :
    Except String ImportCounters × List Contact :=
  match parse_excel p1 p2 p3 with
  | none => (Except.error "400: could not read the uploaded file", store)
  | some sheet =>
      let (res, store2) := import_core mapping sheet now store
      (Except.ok res, store2)

/-! ## Contact creation (POST /api/contacts, server.py 607-641) -/

/-- The request body of the create endpoint (model ContactCreate). -/
structure ContactCreate where
  phone : String
  customer_name : Option String
  status : String
  data : List (String × String)
deriving Repr, DecidableEq

/-- POST /api/contacts: duplicate-phone lookup, then insert.  The uuid of
the new document and the request time are inputs here. -/
def create_contact (store : List Contact) (req : ContactCreate) (newId now : String) :
    Except String Contact × List Contact :=
  if store.any (fun c => c.phone == req.phone) then
    (Except.error "400: Contact with this phone number already exists", store)
  else
    let c : Contact := ⟨newId, req.phone, req.customer_name, req.status, req.data, now⟩
    (Except.ok c, store ++ [c])

/-! ## Search engine (GET /api/contacts, server.py 514-568) -/

/-- The enumerated attribute-bag key variants searched by the contact
listing (server.py lines 535-550), copied verbatim. -/
def data_fields : List String :=
  ["shop_name", "Shop_Name", "Shop Name", "shopName", "SHOP_NAME",
   "business_name", "Business_Name", "Business Name", "businessName", "BUSINESS_NAME",
   "shop", "Shop", "SHOP", "store_name", "Store_Name", "Store Name", "storeName",
   "name", "Name", "NAME", "customer_name", "Customer_Name", "Customer Name", "customerName",
   "owner_name", "Owner_Name", "Owner Name", "ownerName", "OWNER_NAME",
   "contact_person", "Contact_Person", "Contact Person", "contactPerson",
   "address", "Address", "ADDRESS", "full_address", "Full_Address", "Full Address", "fullAddress",
   "city", "City", "CITY", "state", "State", "STATE", "location", "Location", "LOCATION",
   "company", "Company", "COMPANY", "firm", "Firm", "FIRM",
   "organization", "Organization", "ORGANIZATION", "title", "Title", "TITLE"]

/-- The or-disjunction of regex conditions the endpoint builds for a search
term (server.py lines 529-556): the phone field, the customer name field,
and the bag value under each enumerated key. -/
def matchesSearch (search : String) (c : Contact) : Bool :=
  regexMatchI search c.phone ||
  (match c.customer_name with
   | some n => regexMatchI search n
   | none => false) ||
  data_fields.any (fun k =>
    match List.lookup k c.data with
    | some v => regexMatchI search v
    | none => false)

/-- The complete Mongo filter of the listing (server.py lines 522-559); a
missing or empty search term or status adds no clause (Python truthiness). -/
def contactsQuery (search status : Option String) (c : Contact) : Bool :=
  (match search with
   | some s => if s ≠ "" then matchesSearch s c else true
   | none => true) &&
  (match status with
   | some st => if st ≠ "" then c.status == st else true
   | none => true)

/-- sort("created_at", -1): descending lexicographic order on the ISO
timestamp strings. -/
def createdDesc (a b : Contact) : Prop := strLe b.created_at a.created_at

instance : DecidableRel createdDesc := fun a b => by unfold createdDesc; infer_instance

instance : IsTotal Contact createdDesc :=
  ⟨fun a b => le_total (strKey b.created_at) (strKey a.created_at)⟩

instance : IsTrans Contact createdDesc :=
  ⟨fun _ _ _ hab hbc => le_trans hbc hab⟩

/-- GET /api/contacts: filter, sort by creation time descending, then
paginate with skip and limit (server.py lines 514-565). -/
def get_contacts (skip limit : Nat) (search status : Option String)
    (store : List Contact) : List Contact :=
  ((((store.filter (contactsQuery search status)).insertionSort createdDesc).drop skip).take limit)

/-- Modelled from the spec wording of the search contract: the term occurs
as a case-insensitive substring of the phone field, of the customer name
field, or of the bag value under one of the enumerated key variants; a
supplied status filter matches exactly. -/
def specMatches (term : String) (statusF : Option String) (c : Contact) : Prop :=
  (containsCI term c.phone = true ∨
   (∃ n, c.customer_name = some n ∧ containsCI term n = true) ∨
   (∃ k, k ∈ data_fields ∧ ∃ v, List.lookup k c.data = some v ∧ containsCI term v = true)) ∧
  (∀ st, statusF = some st → st ≠ "" → c.status = st)

/-! ## Follow-up listing endpoints (server.py 823-980) -/

/-- The statuses fetched by every follow-up listing endpoint. -/
def liveStatus (f : FollowUp) : Bool := f.status == "pending" || f.status == "overdue"

/-- sort("follow_up_date", 1). -/
def dateAsc (a b : FollowUp) : Prop := strLe a.follow_up_date b.follow_up_date

instance : DecidableRel dateAsc := fun a b => by unfold dateAsc; infer_instance

/-- update_one setting the status of the first document with this id to
overdue. -/
def setOverdueFirst (i : String) (l : List FollowUp) : List FollowUp :=
  updateFirst (fun f => f.id == i) (fun f => { f with status := "overdue" }) l

/-- A fetched row needs the lazy overdue re-tag: its date has passed and it
is not already tagged (server.py lines 844-847 and 971-973). -/
def needsRetag (now : String) (f : FollowUp) : Bool :=
  decide (strLt f.follow_up_date now) && !(f.status == "overdue")

/-- The write-through part of the listing loops of the upcoming and the
paginated endpoints: the ids written and the collection afterwards.  Every
decision reads the fetched snapshot, never the threaded collection, exactly
as in the source loops. -/
def retagLoop (now : String) : List FollowUp → List FollowUp → List String × List FollowUp
  | [], store => ([], store)
  | f :: fs, store =>
      if needsRetag now f then
        let out := retagLoop now fs (setOverdueFirst f.id store)
        (f.id :: out.1, out.2)
      else retagLoop now fs store

/-- A follow-up as rendered by a listing endpoint, with the contact details
attached when the referenced contact exists. -/
structure FUView where
  fu : FollowUp
  contact : Option Contact
deriving Repr, DecidableEq

/-- Attach the referenced contact to a fetched follow-up. -/
def attachContact (contacts : List Contact) (f : FollowUp) : FUView :=
  ⟨f, contacts.find? (fun c => c.id == f.contact_id)⟩

/-- The response and effect of GET /api/followups/upcoming. -/
structure UpcomingOut where
  overdue : List FUView
  upcoming : List FUView
  writes : List String
  store : List FollowUp
deriving Repr, DecidableEq

/-- GET /api/followups/upcoming (server.py lines 823-855): fetch the live
rows sorted by date, re-tag the past pending ones through the store, bucket
into overdue and upcoming, and cap the upcoming bucket at 20.  The source
builds the buckets in the same pass as the writes; both depend only on the
fetched snapshot, so they are computed side by side here. -/
def get_upcoming_followups (now : String) (contacts : List Contact)
    (store : List FollowUp) : UpcomingOut :=
  let fetched := (store.filter liveStatus).insertionSort dateAsc
  let eff := retagLoop now fetched store
  { overdue := (fetched.filter (fun f => decide (strLt f.follow_up_date now))).map
      (fun f => attachContact contacts { f with status := "overdue" })
    upcoming := ((fetched.filter (fun f => !decide (strLt f.follow_up_date now))).map
      (attachContact contacts)).take 20
    writes := eff.1
    store := eff.2 }

/-- The response and effect of GET /api/followups/by-date. -/
structure ByDateOut where
  followups : List FUView
  count : Nat
  store : List FollowUp
deriving Repr, DecidableEq

/-- The optional date window of the by-date and paginated endpoints as an
inclusive pair of ISO bounds.  The source computes it from the current UTC
date for today, tomorrow and this_week and leaves it absent for all; the
computed bounds are taken as an input here since no claim depends on the
window arithmetic. -/
def inWindow (window : Option (String × String)) (f : FollowUp) : Bool :=
  match window with
  | none => true
  | some (s, e) => decide (strLe s f.follow_up_date) && decide (strLe f.follow_up_date e)

/-- GET /api/followups/by-date (server.py lines 857-904): fetch the live
rows in the window sorted by date and attach contact details, keeping only
rows whose contact exists.  The endpoint performs no status write. -/
def get_followups_by_date (window : Option (String × String)) (contacts : List Contact)
    (store : List FollowUp) : ByDateOut :=
  let fetched := (store.filter (fun f => liveStatus f && inWindow window f)).insertionSort dateAsc
  let result := (fetched.map (attachContact contacts)).filter (fun v => v.contact.isSome)
  { followups := result, count := result.length, store := store }

/-- The response and effect of GET /api/followups/paginated. -/
structure PaginatedOut where
  followups : List FUView
  writes : List String
  store : List FollowUp
deriving Repr, DecidableEq

/-- GET /api/followups/paginated (server.py lines 930-980): fetch one page
of the live rows in the window, re-tag past pending rows through the store,
and return the page with contact details, keeping only rows whose contact
exists. -/
def get_paginated_followups (skip limit : Nat) (window : Option (String × String))
    (now : String) (contacts : List Contact) (store : List FollowUp) : PaginatedOut :=
  let fetched := ((((store.filter (fun f => liveStatus f && inWindow window f)).insertionSort
      dateAsc).drop skip).take limit)
  let eff := retagLoop now fetched store
  let rendered := fetched.map (fun f =>
    if decide (strLt f.follow_up_date now) then { f with status := "overdue" } else f)
  { followups := (rendered.map (attachContact contacts)).filter (fun v => v.contact.isSome)
    writes := eff.1
    store := eff.2 }

/-! ## Demo watched update (PUT /api/demos/{id}/watched, server.py 1271-1317) -/

/-- Python truthiness fallback x or d on an optional string: an absent or
empty value falls back to the default. -/
def pyOrElse (o : Option String) (d : String) : String :=
  match o with
  | some s => if s ≠ "" then s else d
  | none => d

/-- PUT /api/demos/{id}/watched: resolve the demo, enforce ownership, then
set watched, watched_at and updated_at unconditionally; the stored
watched_at becomes the supplied value when truthy, otherwise (absent or
empty) the current time. -/
def mark_demo_watched (demos : List Demo) (demo_id uid : String)
    (watched_at_arg : Option String) (now : String) : Except Nat String × List Demo :=
  match demos.find? (fun d => d.id == demo_id) with
  | none => (Except.error 404, demos)
  | some d =>
      if d.user_id ≠ uid then (Except.error 403, demos)
      else
        let w := pyOrElse watched_at_arg now
        (Except.ok w,
         updateFirst (fun x => x.id == demo_id)
           (fun x => { x with watched := true, watched_at := some w, updated_at := now })
           demos)

/-! ## Follow-up alert sweep (check_followup_alerts, server.py 1469-1516) -/

/-- One outbound notification of the sweep. -/
structure Dispatch where
  followup_id : String
  email : String
  subject : String
deriving Repr, DecidableEq

/-- Row selection of the sweep (server.py lines 1475-1481): pending, not
yet notified, and due before the alert window, which the caller computes as
now plus 30 minutes. -/
def sweepSelect (window : String) (store : List FollowUp) : List FollowUp :=
  store.filter (fun f =>
    f.status == "pending" && f.notified == false && decide (strLe f.follow_up_date window))

/-- The display name used in the notification (server.py line 1489). -/
def contactDisplayName (c : Contact) : String := (List.lookup "name" c.data).getD c.phone

/-- update_one setting the notified flag of the first document with this
id (server.py lines 1508-1511). -/
def setNotifiedFirst (i : String) (l : List FollowUp) : List FollowUp :=
  updateFirst (fun f => f.id == i) (fun f => { f with notified := true }) l

/-- The dispatch loop of the sweep (server.py lines 1483-1513): rows whose
contact no longer exists are skipped silently and not marked; every
dispatched row is marked notified.  The selection is the pre-fetched
snapshot, never re-read. -/
def sweepLoop (contacts : List Contact) : List FollowUp → List FollowUp →
    List Dispatch × List FollowUp
  | [], store => ([], store)
  | f :: fs, store =>
      match contacts.find? (fun c => c.id == f.contact_id) with
      | none => sweepLoop contacts fs store
      | some c =>
          let out := sweepLoop contacts fs (setNotifiedFirst f.id store)
          (⟨f.id, f.user_email, "Follow-up Reminder: " ++ contactDisplayName c⟩ :: out.1,
           out.2)

/-- One sweep execution: select, then dispatch and mark. -/
def check_followup_alerts (window : String) (contacts : List Contact)
    (store : List FollowUp) : List Dispatch × List FollowUp :=
  sweepLoop contacts (sweepSelect window store) store

/-! ## Concrete scenario values used by the theorems below -/

/-- The three-row sheet of the blank-phone scenario: columns Phone, Name,
Email; the second row has a blank phone and the name Ace Shop. -/
def aceSheet : Sheet :=
  ⟨["Phone", "Name", "Email"],
   [["111", "Bob", "b@x"], ["", "Ace Shop", "a@x"], ["222", "Cid", "c@x"]]⟩

/-- The mapping of the blank-phone scenario. -/
def aceMapping : List (String × String) :=
  [("phone", "Phone"), ("customer_name", "Name"), ("email", "Email")]

/-- A one-row sheet whose only mapped non-phone value is a status. -/
def statusOnlySheet : Sheet := ⟨["Phone", "Status"], [["111", "Hot"]]⟩

/-- The mapping of the status-only scenario. -/
def statusOnlyMapping : List (String × String) :=
  [("phone", "Phone"), ("status", "Status")]

/-- A sheet with two rows whose phone cells normalize to absent (an empty
string and the literal NA) and one row with a phone. -/
def blankPhoneSheet : Sheet :=
  ⟨["Phone", "City"], [["", "A"], ["NA", "B"], ["7", "C"]]⟩

/-- A stored contact referenced by the follow-up scenarios. -/
def contactC1 : Contact :=
  ⟨"c1", "555", some "Bob", "None", [("name", "Bobby")], "2024-01-01T00:00:00+00:00"⟩

/-- A pending follow-up whose date lies in the past of the scenario time. -/
def pastFollowup : FollowUp :=
  ⟨"f1", "c1", "u1", "u@x.com", "2024-01-10T09:00:00+00:00", none, "pending",
   "2024-01-01T00:00:00+00:00", false⟩

/-- A pending follow-up already marked notified. -/
def notifiedFollowup : FollowUp :=
  ⟨"f2", "c1", "u1", "u@x.com", "2024-01-11T09:00:00+00:00", none, "pending",
   "2024-01-01T00:00:00+00:00", true⟩

/-- The scenario time for the follow-up listings. -/
def c2now : String := "2024-02-01T00:00:00+00:00"

/-- An existing contact for the duplicate-creation scenario. -/
def dupContact : Contact := ⟨"id1", "999", none, "None", [], "2024-01-01T00:00:00+00:00"⟩

/-- A creation request carrying the phone of dupContact. -/
def dupRequest : ContactCreate := ⟨"999", some "X", "None", []⟩

/-- A demo already watched, with a recorded watched_at. -/
def watchedDemo : Demo :=
  ⟨"d1", "c1", "u1", "u@x.com", "2024-01-01T00:00:00+00:00", true,
   some "2024-01-02T00:00:00+00:00", none, "2024-01-01T00:00:00+00:00",
   "2024-01-02T00:00:00+00:00"⟩

/-- A contact whose phone 575 is matched by the regex 5.5 although 5.5 is
not a substring of any of its fields. -/
def dotContact : Contact :=
  ⟨"cd", "575", none, "None", [], "2024-01-01T00:00:00+00:00"⟩

/-! ## Helper lemmas -/

theorem updateFirst_map_key {α β : Type} {p : α → Bool} {g : α → α} {k : α → β}
    (h : ∀ x, k (g x) = k x) :
    ∀ l : List α, (updateFirst p g l).map k = l.map k := by
  intro l
  induction l with
  | nil => rfl
  | cons x xs ih =>
    cases hx : p x
    · simp [updateFirst, hx, ih]
    · simp [updateFirst, hx, h x]

theorem mem_updateFirst {α : Type} {p : α → Bool} {g : α → α} :
    ∀ {l : List α} {x : α}, x ∈ updateFirst p g l → x ∈ l ∨ ∃ y, y ∈ l ∧ x = g y := by
  intro l
  induction l with
  | nil => intro x hx; simp [updateFirst] at hx
  | cons z zs ih =>
    intro x hx
    cases hz : p z
    · rw [show updateFirst p g (z :: zs) = z :: updateFirst p g zs from by
        simp [updateFirst, hz]] at hx
      rcases List.mem_cons.mp hx with h | h
      · exact Or.inl (by simp [h])
      · rcases ih h with h2 | ⟨y, hy, he⟩
        · exact Or.inl (by simp [h2])
        · exact Or.inr ⟨y, by simp [hy], he⟩
    · rw [show updateFirst p g (z :: zs) = g z :: zs from by simp [updateFirst, hz]] at hx
      rcases List.mem_cons.mp hx with h | h
      · exact Or.inr ⟨z, by simp, h⟩
      · exact Or.inl (by simp [h])

theorem find?_updateFirst {α : Type} {p : α → Bool} {g : α → α}
    (hp : ∀ x, p x = true → p (g x) = true) :
    ∀ l : List α, (updateFirst p g l).find? p = (l.find? p).map g := by
  intro l
  induction l with
  | nil => rfl
  | cons z zs ih =>
    cases hz : p z
    · rw [show updateFirst p g (z :: zs) = z :: updateFirst p g zs from by
        simp [updateFirst, hz]]
      rw [List.find?_cons_of_neg _ (by simp [hz]), List.find?_cons_of_neg _ (by simp [hz]), ih]
    · rw [show updateFirst p g (z :: zs) = g z :: zs from by simp [updateFirst, hz]]
      rw [List.find?_cons_of_pos _ (hp z hz), List.find?_cons_of_pos _ hz]
      rfl

theorem setOverdueFirst_map_id (i : String) (l : List FollowUp) :
    (setOverdueFirst i l).map FollowUp.id = l.map FollowUp.id := by
  unfold setOverdueFirst
  apply updateFirst_map_key
  intro x
  rfl

theorem setOverdueFirst_at :
    ∀ {l : List FollowUp}, (l.map FollowUp.id).Nodup →
      ∀ {i : String}, ∀ g ∈ setOverdueFirst i l, g.id = i → g.status = "overdue" := by
  intro l
  induction l with
  | nil => intro _ i g hg; simp [setOverdueFirst, updateFirst] at hg
  | cons z zs ih =>
    intro hnd i g hg hgi
    rw [List.map_cons, List.nodup_cons] at hnd
    cases hz : (z.id == i)
    · rw [show setOverdueFirst i (z :: zs) = z :: setOverdueFirst i zs from by
        simp [setOverdueFirst, updateFirst, hz]] at hg
      rcases List.mem_cons.mp hg with h | h
      · subst h
        exact absurd hgi (by simpa using hz)
      · exact ih hnd.2 g h hgi
    · rw [show setOverdueFirst i (z :: zs) = { z with status := "overdue" } :: zs from by
        simp [setOverdueFirst, updateFirst, hz]] at hg
      rcases List.mem_cons.mp hg with h | h
      · subst h; rfl
      · exact absurd (hgi ▸ List.mem_map_of_mem FollowUp.id h)
          (by rw [show z.id = i from by simpa using hz] at hnd; exact hnd.1)

theorem setOverdueFirst_preserves {i j : String} {l : List FollowUp}
    (h : ∀ g ∈ l, g.id = i → g.status = "overdue") :
    ∀ g ∈ setOverdueFirst j l, g.id = i → g.status = "overdue" := by
  intro g hg hgi
  rcases mem_updateFirst hg with h1 | ⟨y, _, he⟩
  · exact h g h1 hgi
  · subst he; rfl

theorem retagLoop_writes (now : String) :
    ∀ (fs store : List FollowUp),
      (retagLoop now fs store).1 = (fs.filter (needsRetag now)).map FollowUp.id := by
  intro fs
  induction fs with
  | nil => intro store; rfl
  | cons f fs ih =>
    intro store
    cases h : needsRetag now f
    · simp [retagLoop, h, List.filter_cons, ih]
    · simp [retagLoop, h, List.filter_cons, ih]

theorem retagLoop_map_id (now : String) :
    ∀ (fs store : List FollowUp),
      (retagLoop now fs store).2.map FollowUp.id = store.map FollowUp.id := by
  intro fs
  induction fs with
  | nil => intro store; rfl
  | cons f fs ih =>
    intro store
    cases h : needsRetag now f
    · simp [retagLoop, h, ih]
    · simp [retagLoop, h, ih, setOverdueFirst_map_id]

theorem retagLoop_preserves (now i : String) :
    ∀ (fs store : List FollowUp),
      (∀ g ∈ store, g.id = i → g.status = "overdue") →
      ∀ g ∈ (retagLoop now fs store).2, g.id = i → g.status = "overdue" := by
  intro fs
  induction fs with
  | nil => intro store h; exact h
  | cons f fs ih =>
    intro store h
    cases hf : needsRetag now f
    · simpa [retagLoop, hf] using ih store h
    · simpa [retagLoop, hf] using ih (setOverdueFirst f.id store) (setOverdueFirst_preserves h)

theorem retagLoop_overdue_at (now : String) :
    ∀ (fs store : List FollowUp) (f : FollowUp),
      (store.map FollowUp.id).Nodup → f ∈ fs → needsRetag now f = true →
      ∀ g ∈ (retagLoop now fs store).2, g.id = f.id → g.status = "overdue" := by
  intro fs
  induction fs with
  | nil => intro store f _ hf; exact absurd hf (List.not_mem_nil f)
  | cons z zs ih =>
    intro store f hnd hf hr
    rcases List.mem_cons.mp hf with rfl | hf2
    · simpa [retagLoop, hr] using
        retagLoop_preserves now f.id zs (setOverdueFirst f.id store) (setOverdueFirst_at hnd)
    · cases hz : needsRetag now z
      · simpa [retagLoop, hz] using ih store f hnd hf2 hr
      · simpa [retagLoop, hz] using
          ih (setOverdueFirst z.id store) f
            (by rw [setOverdueFirst_map_id]; exact hnd) hf2 hr

theorem setNotifiedFirst_map_id (i : String) (l : List FollowUp) :
    (setNotifiedFirst i l).map FollowUp.id = l.map FollowUp.id := by
  unfold setNotifiedFirst
  apply updateFirst_map_key
  intro x
  rfl

theorem setNotifiedFirst_at :
    ∀ {l : List FollowUp}, (l.map FollowUp.id).Nodup →
      ∀ {i : String}, ∀ g ∈ setNotifiedFirst i l, g.id = i → g.notified = true := by
  intro l
  induction l with
  | nil => intro _ i g hg; simp [setNotifiedFirst, updateFirst] at hg
  | cons z zs ih =>
    intro hnd i g hg hgi
    rw [List.map_cons, List.nodup_cons] at hnd
    cases hz : (z.id == i)
    · rw [show setNotifiedFirst i (z :: zs) = z :: setNotifiedFirst i zs from by
        simp [setNotifiedFirst, updateFirst, hz]] at hg
      rcases List.mem_cons.mp hg with h | h
      · subst h
        exact absurd hgi (by simpa using hz)
      · exact ih hnd.2 g h hgi
    · rw [show setNotifiedFirst i (z :: zs) = { z with notified := true } :: zs from by
        simp [setNotifiedFirst, updateFirst, hz]] at hg
      rcases List.mem_cons.mp hg with h | h
      · subst h; rfl
      · exact absurd (hgi ▸ List.mem_map_of_mem FollowUp.id h)
          (by rw [show z.id = i from by simpa using hz] at hnd; exact hnd.1)

theorem setNotifiedFirst_preserves {i j : String} {l : List FollowUp}
    (h : ∀ g ∈ l, g.id = i → g.notified = true) :
    ∀ g ∈ setNotifiedFirst j l, g.id = i → g.notified = true := by
  intro g hg hgi
  rcases mem_updateFirst hg with h1 | ⟨y, _, he⟩
  · exact h g h1 hgi
  · subst he; rfl

theorem sweepLoop_map_id (contacts : List Contact) :
    ∀ (fs store : List FollowUp),
      (sweepLoop contacts fs store).2.map FollowUp.id = store.map FollowUp.id := by
  intro fs
  induction fs with
  | nil => intro store; rfl
  | cons z zs ih =>
    intro store
    cases hfind : contacts.find? (fun c => c.id == z.contact_id)
    · simp [sweepLoop, hfind, ih]
    · simp [sweepLoop, hfind, ih, setNotifiedFirst_map_id]

theorem sweepLoop_preserves (contacts : List Contact) (i : String) :
    ∀ (fs store : List FollowUp),
      (∀ g ∈ store, g.id = i → g.notified = true) →
      ∀ g ∈ (sweepLoop contacts fs store).2, g.id = i → g.notified = true := by
  intro fs
  induction fs with
  | nil => intro store h; exact h
  | cons z zs ih =>
    intro store h
    cases hfind : contacts.find? (fun c => c.id == z.contact_id)
    · simpa [sweepLoop, hfind] using ih store h
    · simpa [sweepLoop, hfind] using
        ih (setNotifiedFirst z.id store) (setNotifiedFirst_preserves h)

theorem sweepLoop_dispatch_from (contacts : List Contact) :
    ∀ (fs store : List FollowUp), ∀ d ∈ (sweepLoop contacts fs store).1,
      ∃ f, f ∈ fs ∧ d.followup_id = f.id := by
  intro fs
  induction fs with
  | nil => intro store d hd; simp [sweepLoop] at hd
  | cons z zs ih =>
    intro store d hd
    cases hfind : contacts.find? (fun c => c.id == z.contact_id)
    · rw [show sweepLoop contacts (z :: zs) store = sweepLoop contacts zs store from by
        simp [sweepLoop, hfind]] at hd
      rcases ih store d hd with ⟨f, hf, he⟩
      exact ⟨f, by simp [hf], he⟩
    · simp only [sweepLoop, hfind] at hd
      rcases List.mem_cons.mp hd with h | h
      · exact ⟨z, by simp, by rw [h]⟩
      · rcases ih (setNotifiedFirst z.id store) d h with ⟨f, hf, he⟩
        exact ⟨f, by simp [hf], he⟩

theorem sweepLoop_notified_at (contacts : List Contact) :
    ∀ (fs store : List FollowUp), (store.map FollowUp.id).Nodup →
      ∀ d ∈ (sweepLoop contacts fs store).1,
        ∀ g ∈ (sweepLoop contacts fs store).2, g.id = d.followup_id → g.notified = true := by
  intro fs
  induction fs with
  | nil => intro store _ d hd; simp [sweepLoop] at hd
  | cons z zs ih =>
    intro store hnd d hd g hg hgi
    cases hfind : contacts.find? (fun c => c.id == z.contact_id)
    · rw [show sweepLoop contacts (z :: zs) store = sweepLoop contacts zs store from by
        simp [sweepLoop, hfind]] at hd hg
      exact ih store hnd d hd g hg hgi
    · simp only [sweepLoop, hfind] at hd hg
      rcases List.mem_cons.mp hd with h | h
      · subst h
        exact sweepLoop_preserves contacts z.id zs (setNotifiedFirst z.id store)
          (setNotifiedFirst_at hnd) g hg hgi
      · exact ih (setNotifiedFirst z.id store)
          (by rw [setNotifiedFirst_map_id]; exact hnd) d h g hg hgi

theorem importLoop_count (mapping : List (String × String)) (cols : List String)
    (now : String) :
    ∀ (rows : List (List String)) (st : LoopState),
      (importLoop mapping cols now rows st).imported
          + (importLoop mapping cols now rows st).skipped
        = st.imported + st.skipped + rows.length := by
  intro rows
  induction rows with
  | nil => intro st; simp [importLoop]
  | cons row rest ih =>
    intro st
    simp only [importLoop]
    split
    · rw [ih]; simp [List.length_cons]; omega
    · split
      · rw [ih]; simp [List.length_cons]; omega
      · rw [ih]; simp [List.length_cons]; omega

theorem dedupeAux_filter_key (key : List String → Option String) (k : Option String) :
    ∀ (rows : List (List String)) (seen : List (Option String)),
      (dedupeAux key seen rows).filter (fun r => key r == k)
        = if k ∈ seen then [] else (rows.filter (fun r => key r == k)).take 1 := by
  intro rows
  induction rows with
  | nil => intro seen; simp [dedupeAux]
  | cons r rs ih =>
    intro seen
    by_cases h1 : key r ∈ seen
    · rw [show dedupeAux key seen (r :: rs) = dedupeAux key seen rs from by
        simp [dedupeAux, h1]]
      rw [ih]
      by_cases h2 : key r = k
      · subst h2; simp [h1]
      · rw [show (r :: rs).filter (fun r => key r == k) = rs.filter (fun r => key r == k)
          from by simp [List.filter_cons, h2]]
    · rw [show dedupeAux key seen (r :: rs) = r :: dedupeAux key (key r :: seen) rs from by
        simp [dedupeAux, h1]]
      by_cases h2 : key r = k
      · subst h2
        rw [show (r :: dedupeAux key (key r :: seen) rs).filter (fun x => key x == key r)
              = r :: (dedupeAux key (key r :: seen) rs).filter (fun x => key x == key r)
            from by simp [List.filter_cons]]
        rw [ih]
        simp [h1, List.filter_cons]
      · rw [show (r :: dedupeAux key (key r :: seen) rs).filter (fun x => key x == k)
              = (dedupeAux key (key r :: seen) rs).filter (fun x => key x == k)
            from by simp [List.filter_cons, h2]]
        rw [ih]
        rw [show (r :: rs).filter (fun x => key x == k) = rs.filter (fun x => key x == k)
          from by simp [List.filter_cons, h2]]
        have h3 : ¬(k = key r) := fun h => h2 h.symm
        simp [List.mem_cons, h3]

theorem containsSub_nil : ∀ l : List Char, containsSub [] l = true := by
  intro l
  cases l <;> simp [containsSub, List.isPrefixOf]

theorem containsCI_empty (s : String) : containsCI "" s = true := by
  have h : (lowerStr "").data = ([] : List Char) := rfl
  rw [containsCI, h, containsSub_nil]

theorem matchHere_eq_prefix {ps : List Char} (h : ∀ p ∈ ps, p ≠ '.') :
    ∀ cs : List Char,
      matchHere ps cs = (ps.map Char.toLower).isPrefixOf (cs.map Char.toLower) := by
  induction ps with
  | nil => intro cs; cases cs <;> simp [matchHere, List.isPrefixOf]
  | cons p ps ih =>
    intro cs
    cases cs with
    | nil => simp [matchHere, List.isPrefixOf]
    | cons c cs2 =>
      have hp : (p == '.') = false := by
        simp only [beq_eq_false_iff_ne, ne_eq]
        exact h p (by simp)
      simp [matchHere, List.isPrefixOf, charMatchesI, hp,
        ih (fun q hq => h q (by simp [hq]))]

theorem regexSearch_eq_contains {ps : List Char} (h : ∀ p ∈ ps, p ≠ '.') :
    ∀ cs : List Char,
      regexSearch ps cs = containsSub (ps.map Char.toLower) (cs.map Char.toLower) := by
  intro cs
  induction cs with
  | nil => cases ps <;> simp [regexSearch, containsSub]
  | cons c cs2 ih =>
    simp [regexSearch, containsSub, matchHere_eq_prefix h, ih]

theorem regexMatchI_eq_containsCI {term : String} (h : regexFree term) :
    ∀ s : String, regexMatchI term s = containsCI term s := by
  intro s
  have hdot : ∀ p ∈ term.data, p ≠ '.' := by
    intro p hp hq
    exact (h p hp) (by rw [hq]; simp [regexMetachars])
  rw [regexMatchI, containsCI, regexSearch_eq_contains hdot]
  rfl

theorem matchOpt_true {o : Option String} {P : String → Bool} :
    (match o with | some v => P v | none => false) = true ↔
      ∃ v, o = some v ∧ P v = true := by
  cases o <;> simp

theorem matchesSearch_iff (term : String) (c : Contact) :
    matchesSearch term c = true ↔
      (regexMatchI term c.phone = true ∨
       (∃ n, c.customer_name = some n ∧ regexMatchI term n = true) ∨
       (∃ k, k ∈ data_fields ∧ ∃ v, List.lookup k c.data = some v ∧
          regexMatchI term v = true)) := by
  unfold matchesSearch
  simp only [Bool.or_eq_true, List.any_eq_true]
  constructor
  · rintro ((h | h) | ⟨k, hk, hmatch⟩)
    · exact Or.inl h
    · exact Or.inr (Or.inl (matchOpt_true.mp h))
    · exact Or.inr (Or.inr ⟨k, hk, matchOpt_true.mp hmatch⟩)
  · rintro (h | ⟨n, hn, hm⟩ | ⟨k, hk, v, hv, hm⟩)
    · exact Or.inl (Or.inl h)
    · exact Or.inl (Or.inr (matchOpt_true.mpr ⟨n, hn, hm⟩))
    · exact Or.inr ⟨k, hk, matchOpt_true.mpr ⟨v, hv, hm⟩⟩

/-! ## Claim theorems -/

/-- Claim C8: when every parser (primary and all fallbacks) fails on the
uploaded payload, the import request is rejected with a client error and
the contact store is exactly as it was before the request. -/
theorem parse_failure_no_commit :
    ∀ (mapping : List (String × String)) (now : String) (store : List Contact),
      import_contacts none none none mapping now store
        = (Except.error "400: could not read the uploaded file", store) := by
  intro mapping now store
  rfl

/-- Claim C1: for every mapping and file accepted by the import endpoint,
the returned counters satisfy imported plus skipped equals the number of
rows remaining after the in-file dedup pass. -/
theorem import_counts_partition :
    ∀ (p1 p2 p3 : Option Sheet) (sheet : Sheet) (mapping : List (String × String))
      (now : String) (store : List Contact),
      parse_excel p1 p2 p3 = some sheet →
      ∃ res : ImportCounters,
        (import_contacts p1 p2 p3 mapping now store).1 = Except.ok res ∧
        res.imported + res.skipped = (dedupedRows mapping sheet).length := by
  intro p1 p2 p3 sheet mapping now store hparse
  refine ⟨(import_core mapping sheet now store).1, ?_, ?_⟩
  · simp [import_contacts, hparse]
  · show (importLoop mapping (stripCols sheet).columns now (dedupedRows mapping sheet)
        ⟨0, 0, 0, 0, 0, store⟩).imported
      + (importLoop mapping (stripCols sheet).columns now (dedupedRows mapping sheet)
        ⟨0, 0, 0, 0, 0, store⟩).skipped = (dedupedRows mapping sheet).length
    rw [importLoop_count]
    simp

/-- Witness for claim C1: the three-row scenario sheet goes through the
endpoint and the partition identity holds on its counters. -/
theorem import_counts_partition_witness :
    ∃ res : ImportCounters,
      (import_contacts (some aceSheet) none none aceMapping "t" []).1 = Except.ok res ∧
      res.imported + res.skipped = (dedupedRows aceMapping aceSheet).length :=
  import_counts_partition (some aceSheet) none none aceSheet aceMapping "t" [] rfl

/-- Counterexample for claim C3: in the three-row scenario with one blank
phone and the name Ace Shop mapped to customer_name, the import does report
three imported rows, but no stored contact carries a phone of the form
Ace_Shop_n; the blank-phone row is stored under contact_2. -/
theorem ace_shop_scenario_counterexample :
    (import_contacts (some aceSheet) none none aceMapping "t" []).1
        = Except.ok ⟨3, 0, 0, 0, 0, 3, 3⟩ ∧
    (import_contacts (some aceSheet) none none aceMapping "t" []).2.countP
        (fun c => "Ace_Shop_".data.isPrefixOf c.phone.data) = 0 := by
  exact ⟨rfl, rfl⟩

/-- Claim C3 as amended: in the scenario the import reports imported three,
and the blank-phone row is stored under the generic synthesized phone
contact_2 (the shop-name slug is not used because the mapping routes the
name Ace Shop into customer_name, not into a shop_name attribute). -/
theorem ace_shop_scenario_amended :
    (import_contacts (some aceSheet) none none aceMapping "t" []).1
        = Except.ok ⟨3, 0, 0, 0, 0, 3, 3⟩ ∧
    (import_contacts (some aceSheet) none none aceMapping "t" []).2.map Contact.phone
        = ["111", "contact_2", "222"] ∧
    (import_contacts (some aceSheet) none none aceMapping "t" []).2.find?
        (fun c => c.phone == "contact_2")
      = some ⟨"", "contact_2", some "Ace Shop", "None", [("email", "a@x")], "t"⟩ := by
  exact ⟨rfl, rfl, rfl⟩

/-- Counterexample for claim C4: a row whose only non-absent mapped value
is a status is inserted, because the emptiness check runs before status is
popped out of the attribute map; the one-row status-only sheet yields one
imported contact. -/
theorem status_only_row_counterexample :
    (import_contacts (some statusOnlySheet) none none statusOnlyMapping "t" []).1
        = Except.ok ⟨1, 0, 0, 0, 0, 1, 1⟩ ∧
    (import_contacts (some statusOnlySheet) none none statusOnlyMapping "t" []).2
        = [⟨"", "111", none, "Hot", [], "t"⟩] := by
  exact ⟨rfl, rfl⟩

/-- Claim C4 as amended: a row whose attribute map is empty after
normalization and after excluding phone, phone2 and customer_name (the map
the code tests still contains any mapped status or phone2 value), and whose
resolved phone is not already stored, is skipped and counted as empty with
no insertion. -/
theorem empty_row_skip_amended :
    ∀ (mapping : List (String × String)) (cols : List String) (now : String)
      (row : List String) (rest : List (List String)) (st : LoopState),
      rowData mapping cols row = [] →
      st.store.any (fun c =>
          c.phone == rowPhone mapping cols row (st.processed + 1)
            (rowData mapping cols row)) = false →
      importLoop mapping cols now (row :: rest) st
        = importLoop mapping cols now rest
            { st with processed := st.processed + 1, skipped := st.skipped + 1,
                      empty_data := st.empty_data + 1 } := by
  intro mapping cols now row rest st hdat hdup
  rw [hdat] at hdup
  simp [importLoop, hdat, hdup]

/-- Witness for the amended claim C4: a row carrying only a phone cell has
an empty attribute map and is skipped as empty. -/
theorem empty_row_skip_amended_witness :
    rowData [("phone", "Phone")] ["Phone"] ["333"] = [] ∧
    importLoop [("phone", "Phone")] ["Phone"] "t" [["333"]] ⟨0, 0, 0, 0, 0, []⟩
      = importLoop [("phone", "Phone")] ["Phone"] "t" []
          { (⟨0, 0, 0, 0, 0, []⟩ : LoopState) with
              processed := 1, skipped := 1, empty_data := 1 } := by
  refine ⟨by decide, ?_⟩
  exact empty_row_skip_amended [("phone", "Phone")] ["Phone"] "t" ["333"] []
    ⟨0, 0, 0, 0, 0, []⟩ (by decide) (by decide)

/-- Claim C6: creating a contact whose phone equals a stored phone fails
with the duplicate error and performs no write, and the operation preserves
uniqueness of phones in the store. -/
theorem create_contact_duplicate_guard :
    ∀ (store : List Contact) (req : ContactCreate) (newId now : String),
      ((∃ c, c ∈ store ∧ c.phone = req.phone) →
        create_contact store req newId now
          = (Except.error "400: Contact with this phone number already exists", store)) ∧
      ((store.map Contact.phone).Nodup →
        ((create_contact store req newId now).2.map Contact.phone).Nodup) := by
  intro store req newId now
  constructor
  · rintro ⟨c, hc, he⟩
    have h : store.any (fun c => c.phone == req.phone) = true :=
      List.any_eq_true.mpr ⟨c, hc, by simp [he]⟩
    simp [create_contact, h]
  · intro hnd
    by_cases h : store.any (fun c => c.phone == req.phone) = true
    · simpa [create_contact, h] using hnd
    · have h2 : req.phone ∉ store.map Contact.phone := by
        intro hmem
        rcases List.mem_map.mp hmem with ⟨c, hc, he⟩
        exact h (List.any_eq_true.mpr ⟨c, hc, by simp [he]⟩)
      simp [create_contact, h, List.nodup_append, hnd, h2]

/-- Witness for claim C6: creating with the phone of dupContact fails, no
write occurs, and the stored phones stay pairwise distinct. -/
theorem create_contact_duplicate_guard_witness :
    create_contact [dupContact] dupRequest "id2" "t2"
        = (Except.error "400: Contact with this phone number already exists",
           [dupContact]) ∧
    ((create_contact [dupContact] dupRequest "id2" "t2").2.map Contact.phone).Nodup := by
  have h := create_contact_duplicate_guard [dupContact] dupRequest "id2" "t2"
  refine ⟨h.1 ⟨dupContact, by decide, by decide⟩, h.2 (by decide)⟩

/-- Counterexample for claim C9: re-invoking the mark-watched operation on
an already watched demo without an explicit watched_at overwrites the
stored watched_at with the current time. -/
theorem demo_watched_at_counterexample :
    watchedDemo.watched = true ∧
    watchedDemo.watched_at = some "2024-01-02T00:00:00+00:00" ∧
    (mark_demo_watched [watchedDemo] "d1" "u1" none
        "2024-03-03T00:00:00+00:00").2.map Demo.watched_at
      = [some "2024-03-03T00:00:00+00:00"] := by
  exact ⟨rfl, rfl, rfl⟩

/-- Claim C9 as amended: every successful mark-watched invocation rewrites
the stored watched_at, to the supplied value when it is truthy, and to the
current time when the field is absent or empty, regardless of the previous
watched state. -/
theorem demo_watched_at_amended :
    ∀ (demos : List Demo) (demo_id uid : String) (w : Option String) (now : String)
      (d : Demo),
      demos.find? (fun x => x.id == demo_id) = some d →
      d.user_id = uid →
      (mark_demo_watched demos demo_id uid w now).1 = Except.ok (pyOrElse w now) ∧
      (mark_demo_watched demos demo_id uid w now).2.find? (fun x => x.id == demo_id)
        = some { d with
                 watched := true
                 watched_at := some (pyOrElse w now)
                 updated_at := now } := by
  intro demos demo_id uid w now d hfind huid
  constructor
  · simp [mark_demo_watched, hfind, huid]
  · simp only [mark_demo_watched, hfind]
    rw [if_neg (by simp [huid])]
    show (updateFirst (fun x => x.id == demo_id)
        (fun x => { x with
                    watched := true
                    watched_at := some (pyOrElse w now)
                    updated_at := now }) demos).find? (fun x => x.id == demo_id)
      = _
    have hres := find?_updateFirst
      (p := fun x : Demo => x.id == demo_id)
      (g := fun x => { x with
                       watched := true
                       watched_at := some (pyOrElse w now)
                       updated_at := now })
      (fun _ hx => hx) demos
    rw [hres, hfind]
    rfl

/-- Witness for the amended claim C9: the already watched demo is updated
and its stored watched_at becomes the current time of the call. -/
theorem demo_watched_at_amended_witness :
    (mark_demo_watched [watchedDemo] "d1" "u1" none "2024-03-03T00:00:00+00:00").1
        = Except.ok "2024-03-03T00:00:00+00:00" ∧
    (mark_demo_watched [watchedDemo] "d1" "u1" none
        "2024-03-03T00:00:00+00:00").2.find? (fun x => x.id == "d1")
      = some { watchedDemo with
               watched := true
               watched_at := some "2024-03-03T00:00:00+00:00"
               updated_at := "2024-03-03T00:00:00+00:00" } :=
  demo_watched_at_amended [watchedDemo] "d1" "u1" none "2024-03-03T00:00:00+00:00"
    watchedDemo (by decide) rfl

/-- Claim C10: when a phone column is designated and present, the in-file
dedup pass treats absent phone cells as equal: at most one row with an
absent phone survives, namely the first such row of the file. -/
theorem blank_phone_dedup :
    ∀ (mapping : List (String × String)) (sheet0 : Sheet) (pc : String),
      colOf mapping (stripCols sheet0).columns "phone" = some pc →
      (dedupedRows mapping sheet0).countP
          (fun r => cell (stripCols sheet0).columns r pc == none) ≤ 1 ∧
      (dedupedRows mapping sheet0).filter
          (fun r => cell (stripCols sheet0).columns r pc == none)
        = ((stripCols sheet0).rows.filter
            (fun r => cell (stripCols sheet0).columns r pc == none)).take 1 := by
  intro mapping sheet0 pc hcol
  have hded : dedupedRows mapping sheet0
      = dedupeAux (fun r => cell (stripCols sheet0).columns r pc) [] (stripCols sheet0).rows := by
    simp only [dedupedRows]
    rw [hcol]
    rfl
  have hfil := dedupeAux_filter_key (fun r => cell (stripCols sheet0).columns r pc)
    none (stripCols sheet0).rows []
  constructor
  · rw [List.countP_eq_length_filter, hded, hfil]
    simp [List.length_take]
  · rw [hded, hfil]
    simp

/-- Witness for claim C10: in the sheet with two absent-phone rows, only
the first survives the dedup pass. -/
theorem blank_phone_dedup_witness :
    (dedupedRows [("phone", "Phone")] blankPhoneSheet).countP
        (fun r => cell (stripCols blankPhoneSheet).columns r "Phone" == none) ≤ 1 ∧
    (dedupedRows [("phone", "Phone")] blankPhoneSheet).filter
        (fun r => cell (stripCols blankPhoneSheet).columns r "Phone" == none)
      = ((stripCols blankPhoneSheet).rows.filter
          (fun r => cell (stripCols blankPhoneSheet).columns r "Phone" == none)).take 1 :=
  blank_phone_dedup [("phone", "Phone")] blankPhoneSheet "Phone" (by decide)

theorem nodup_map_id_inj {l : List FollowUp} (hnd : (l.map FollowUp.id).Nodup)
    {a b : FollowUp} (ha : a ∈ l) (hb : b ∈ l) (he : a.id = b.id) : a = b :=
  List.inj_on_of_nodup_map hnd ha hb he

/-- Claim C5: a follow-up already marked notified is never dispatched by
the alert sweep, and across repeated sweep executions at most one
notification is dispatched per follow-up: the selection excludes notified
rows and every dispatched row is marked notified. -/
theorem sweep_at_most_once :
    ∀ (window : String) (contacts : List Contact) (store : List FollowUp),
      (store.map FollowUp.id).Nodup →
      (∀ f ∈ store, f.notified = true →
        ∀ d ∈ (check_followup_alerts window contacts store).1, d.followup_id ≠ f.id) ∧
      (∀ d ∈ (check_followup_alerts window contacts store).1,
        ∀ window2 contacts2,
          ∀ d2 ∈ (check_followup_alerts window2 contacts2
              (check_followup_alerts window contacts store).2).1,
            d2.followup_id ≠ d.followup_id) := by
  intro window contacts store hnd
  constructor
  · intro f hf hnotif d hd heq
    rcases sweepLoop_dispatch_from contacts (sweepSelect window store) store d hd with
      ⟨g, hg, hgid⟩
    have hgsel := List.mem_filter.mp hg
    have hflags := hgsel.2
    simp only [Bool.and_eq_true, beq_iff_eq] at hflags
    have hgf : g = f := nodup_map_id_inj hnd hgsel.1 hf (by rw [← hgid, heq])
    have hnf : g.notified = false := hflags.1.2
    rw [hgf, hnotif] at hnf
    exact absurd hnf (by decide)
  · intro d hd window2 contacts2 d2 hd2 heq
    have hover := sweepLoop_notified_at contacts (sweepSelect window store) store hnd d hd
    rcases sweepLoop_dispatch_from contacts2
        (sweepSelect window2 (check_followup_alerts window contacts store).2)
        (check_followup_alerts window contacts store).2 d2 hd2 with ⟨g, hg, hgid⟩
    have hgsel := List.mem_filter.mp hg
    have hflags := hgsel.2
    simp only [Bool.and_eq_true, beq_iff_eq] at hflags
    have hnf : g.notified = false := hflags.1.2
    rw [hover g hgsel.1 (by rw [← hgid, heq])] at hnf
    exact absurd hnf (by decide)

/-- Witness for claim C5: with one pending and one already notified
follow-up in store, applying the theorem at the concrete state. -/
theorem sweep_at_most_once_witness :
    (∀ f ∈ [pastFollowup, notifiedFollowup], f.notified = true →
      ∀ d ∈ (check_followup_alerts "2024-02-01T00:00:00+00:00" [contactC1]
          [pastFollowup, notifiedFollowup]).1, d.followup_id ≠ f.id) ∧
    (∀ d ∈ (check_followup_alerts "2024-02-01T00:00:00+00:00" [contactC1]
        [pastFollowup, notifiedFollowup]).1,
      ∀ window2 contacts2,
        ∀ d2 ∈ (check_followup_alerts window2 contacts2
            (check_followup_alerts "2024-02-01T00:00:00+00:00" [contactC1]
              [pastFollowup, notifiedFollowup]).2).1,
          d2.followup_id ≠ d.followup_id) :=
  sweep_at_most_once "2024-02-01T00:00:00+00:00" [contactC1]
    [pastFollowup, notifiedFollowup] (by decide)

theorem page_mem_store {window : Option (String × String)} {skip limit : Nat}
    {store : List FollowUp} {g : FollowUp}
    (h : g ∈ ((((store.filter (fun f => liveStatus f && inWindow window f)).insertionSort
        dateAsc).drop skip).take limit)) :
    g ∈ store ∧ (liveStatus g && inWindow window g) = true := by
  have h1 := List.drop_subset _ _ (List.take_subset _ _ h)
  have h2 := (List.perm_insertionSort dateAsc
    (store.filter (fun f => liveStatus f && inWindow window f))).mem_iff.mp h1
  exact ⟨(List.mem_filter.mp h2).1, (List.mem_filter.mp h2).2⟩

theorem pending_of_live_retag {now : String} {g : FollowUp}
    (hlive : liveStatus g = true) (hr : needsRetag now g = true) :
    g.status = "pending" := by
  simp only [liveStatus, Bool.or_eq_true, beq_iff_eq] at hlive
  simp only [needsRetag, Bool.and_eq_true, Bool.not_eq_true', beq_eq_false_iff_ne] at hr
  rcases hlive with h | h
  · exact h
  · exact absurd h hr.2

/-- Claim C2 as amended: a pending follow-up whose date is strictly in the
past is re-tagged overdue as a write-through side effect of a fetch through
the upcoming or the paginated listing endpoint, and the re-tag happens
exactly once (a subsequent fetch of the now-overdue record performs no
further status write); the by-date listing endpoint performs no status
write at all. -/
theorem followup_retag_amended :
    ∀ (now : String) (contacts : List Contact) (store : List FollowUp),
      (store.map FollowUp.id).Nodup →
      (∀ f ∈ store, f.status = "pending" → strLt f.follow_up_date now →
        f.id ∈ (get_upcoming_followups now contacts store).writes ∧
        (∀ g ∈ (get_upcoming_followups now contacts store).store,
          g.id = f.id → g.status = "overdue") ∧
        (∀ now2 contacts2,
          f.id ∉ (get_upcoming_followups now2 contacts2
              (get_upcoming_followups now contacts store).store).writes)) ∧
      (∀ window, (get_followups_by_date window contacts store).store = store) ∧
      (∀ skip limit window i,
        i ∈ (get_paginated_followups skip limit window now contacts store).writes →
          (∃ g, g ∈ store ∧ g.id = i ∧ g.status = "pending") ∧
          (∀ g ∈ (get_paginated_followups skip limit window now contacts store).store,
            g.id = i → g.status = "overdue") ∧
          (∀ now2 skip2 limit2 window2 contacts2,
            i ∉ (get_paginated_followups skip2 limit2 window2 now2 contacts2
                (get_paginated_followups skip limit window now contacts store).store).writes)) ∧
      (∀ skip limit window f,
        f ∈ ((((store.filter (fun x => liveStatus x && inWindow window x)).insertionSort
            dateAsc).drop skip).take limit) →
        f.status = "pending" → strLt f.follow_up_date now →
        f.id ∈ (get_paginated_followups skip limit window now contacts store).writes ∧
        (∀ g ∈ (get_paginated_followups skip limit window now contacts store).store,
          g.id = f.id → g.status = "overdue") ∧
        (∀ now2 skip2 limit2 window2 contacts2,
          f.id ∉ (get_paginated_followups skip2 limit2 window2 now2 contacts2
              (get_paginated_followups skip limit window now contacts store).store).writes)) := by
  intro now contacts store hnd
  refine ⟨?_, ?_, ?_⟩
  · intro f hf hpend hlt
    have hlive : liveStatus f = true := by simp [liveStatus, hpend]
    have hfin : f ∈ (store.filter liveStatus).insertionSort dateAsc := by
      rw [(List.perm_insertionSort dateAsc (store.filter liveStatus)).mem_iff]
      exact List.mem_filter.mpr ⟨hf, hlive⟩
    have hne : needsRetag now f = true := by
      simp [needsRetag, hpend, hlt]
    have hwrites : ∀ (n2 : String) (c2 : List Contact) (s2 : List FollowUp),
        (get_upcoming_followups n2 c2 s2).writes
          = (((s2.filter liveStatus).insertionSort dateAsc).filter
              (needsRetag n2)).map FollowUp.id := by
      intro n2 c2 s2
      simp [get_upcoming_followups, retagLoop_writes]
    have hstore : (get_upcoming_followups now contacts store).store
        = (retagLoop now ((store.filter liveStatus).insertionSort dateAsc) store).2 := rfl
    have hover : ∀ g ∈ (get_upcoming_followups now contacts store).store,
        g.id = f.id → g.status = "overdue" := by
      rw [hstore]
      exact retagLoop_overdue_at now _ store f hnd hfin hne
    refine ⟨?_, hover, ?_⟩
    · rw [hwrites]
      exact List.mem_map_of_mem FollowUp.id (List.mem_filter.mpr ⟨hfin, hne⟩)
    · intro now2 contacts2 hmem
      rw [hwrites] at hmem
      rcases List.mem_map.mp hmem with ⟨g, hg, hgid⟩
      have hg2 := List.mem_filter.mp hg
      have hg3 := (List.perm_insertionSort dateAsc _).mem_iff.mp hg2.1
      have hg4 := (List.mem_filter.mp hg3).1
      have hov := hover g hg4 hgid
      simp only [needsRetag, Bool.and_eq_true, Bool.not_eq_true', beq_eq_false_iff_ne]
        at hg2
      exact absurd hov hg2.2.2
  · intro window
    rfl
  · have hwrites : ∀ (n2 : String) (c2 : List Contact) (s2 : List FollowUp)
        (sk lm : Nat) (w : Option (String × String)),
        (get_paginated_followups sk lm w n2 c2 s2).writes
          = (((((s2.filter (fun f => liveStatus f && inWindow w f)).insertionSort
              dateAsc).drop sk).take lm).filter (needsRetag n2)).map FollowUp.id := by
      intro n2 c2 s2 sk lm w
      simp [get_paginated_followups, retagLoop_writes]
    have hpag : ∀ (skip limit : Nat) (window : Option (String × String)) (i : String),
        i ∈ (get_paginated_followups skip limit window now contacts store).writes →
          (∃ g, g ∈ store ∧ g.id = i ∧ g.status = "pending") ∧
          (∀ g ∈ (get_paginated_followups skip limit window now contacts store).store,
            g.id = i → g.status = "overdue") ∧
          (∀ (now2 : String) (skip2 limit2 : Nat) (window2 : Option (String × String))
            (contacts2 : List Contact),
            i ∉ (get_paginated_followups skip2 limit2 window2 now2 contacts2
                (get_paginated_followups skip limit window now contacts store).store).writes) := by
      intro skip limit window i hi
      rw [hwrites] at hi
      rcases List.mem_map.mp hi with ⟨g, hg, hgid⟩
      have hgf := List.mem_filter.mp hg
      have hmem := page_mem_store hgf.1
      have hlive : liveStatus g = true := ((Bool.and_eq_true _ _).mp hmem.2).1
      have hpend : g.status = "pending" := pending_of_live_retag hlive hgf.2
      have hstore : (get_paginated_followups skip limit window now contacts store).store
          = (retagLoop now ((((store.filter (fun f => liveStatus f && inWindow window f)).insertionSort
              dateAsc).drop skip).take limit) store).2 := rfl
      have hover : ∀ g2 ∈ (get_paginated_followups skip limit window now contacts store).store,
          g2.id = i → g2.status = "overdue" := by
        rw [hstore]
        intro g2 hg2 hg2i
        exact retagLoop_overdue_at now _ store g hnd hgf.1 hgf.2 g2 hg2
          (hg2i.trans hgid.symm)
      refine ⟨⟨g, hmem.1, hgid, hpend⟩, hover, ?_⟩
      intro now2 skip2 limit2 window2 contacts2 hm2
      rw [hwrites] at hm2
      rcases List.mem_map.mp hm2 with ⟨g3, hg3, hg3id⟩
      have hg3f := List.mem_filter.mp hg3
      have hmem3 := page_mem_store hg3f.1
      have hov3 := hover g3 hmem3.1 hg3id
      simp only [needsRetag, Bool.and_eq_true, Bool.not_eq_true', beq_eq_false_iff_ne]
        at hg3f
      exact absurd hov3 hg3f.2.2
    refine ⟨hpag, ?_⟩
    intro skip limit window f hfp hpend hlt
    have hne : needsRetag now f = true := by
      simp [needsRetag, hpend, hlt]
    have hw : f.id ∈ (get_paginated_followups skip limit window now contacts store).writes := by
      rw [hwrites]
      exact List.mem_map_of_mem FollowUp.id (List.mem_filter.mpr ⟨hfp, hne⟩)
    rcases hpag skip limit window f.id hw with ⟨_, hover, hno⟩
    exact ⟨hw, hover, hno⟩

/-- Counterexample for claim C2: a pending follow-up with a past date is
fetched and returned by the by-date listing endpoint (filter all), yet its
stored status stays pending: that endpoint performs no write-through
re-tag, contradicting the claim that every listing endpoint does. -/
theorem by_date_no_retag_counterexample :
    pastFollowup.status = "pending" ∧
    strLt pastFollowup.follow_up_date c2now ∧
    (get_followups_by_date none [contactC1] [pastFollowup]).followups.map
        (fun v => v.fu.id) = ["f1"] ∧
    (get_followups_by_date none [contactC1] [pastFollowup]).followups.map
        (fun v => v.fu.status) = ["pending"] ∧
    (get_followups_by_date none [contactC1] [pastFollowup]).store = [pastFollowup] := by
  exact ⟨rfl, by decide, rfl, rfl, rfl⟩

/-- Witness for the amended claim C2: the theorem applied to the concrete
store holding one pending past follow-up. -/
theorem followup_retag_amended_witness :
    (∀ f ∈ [pastFollowup], f.status = "pending" → strLt f.follow_up_date c2now →
      f.id ∈ (get_upcoming_followups c2now [contactC1] [pastFollowup]).writes ∧
      (∀ g ∈ (get_upcoming_followups c2now [contactC1] [pastFollowup]).store,
        g.id = f.id → g.status = "overdue") ∧
      (∀ now2 contacts2,
        f.id ∉ (get_upcoming_followups now2 contacts2
            (get_upcoming_followups c2now [contactC1] [pastFollowup]).store).writes)) ∧
    (∀ window, (get_followups_by_date window [contactC1] [pastFollowup]).store
        = [pastFollowup]) ∧
    (∀ skip limit window i,
      i ∈ (get_paginated_followups skip limit window c2now [contactC1]
          [pastFollowup]).writes →
        (∃ g, g ∈ [pastFollowup] ∧ g.id = i ∧ g.status = "pending") ∧
        (∀ g ∈ (get_paginated_followups skip limit window c2now [contactC1]
            [pastFollowup]).store, g.id = i → g.status = "overdue") ∧
        (∀ now2 skip2 limit2 window2 contacts2,
          i ∉ (get_paginated_followups skip2 limit2 window2 now2 contacts2
              (get_paginated_followups skip limit window c2now [contactC1]
                [pastFollowup]).store).writes)) ∧
    (∀ skip limit window f,
      f ∈ (((([pastFollowup].filter (fun x => liveStatus x && inWindow window x)).insertionSort
          dateAsc).drop skip).take limit) →
      f.status = "pending" → strLt f.follow_up_date c2now →
      f.id ∈ (get_paginated_followups skip limit window c2now [contactC1]
          [pastFollowup]).writes ∧
      (∀ g ∈ (get_paginated_followups skip limit window c2now [contactC1]
          [pastFollowup]).store, g.id = f.id → g.status = "overdue") ∧
      (∀ now2 skip2 limit2 window2 contacts2,
        f.id ∉ (get_paginated_followups skip2 limit2 window2 now2 contacts2
            (get_paginated_followups skip limit window c2now [contactC1]
              [pastFollowup]).store).writes)) :=
  followup_retag_amended c2now [contactC1] [pastFollowup] (by decide)

/-- Counterexample for claim C7: the endpoint passes the raw term to the
store as an unescaped regex, so for the term 5.5, whose dot is a
metacharacter, the listing returns the contact with phone 575 although the
term does not occur as a substring of any of its fields. -/
theorem search_regex_counterexample :
    get_contacts 0 10 (some "5.5") none [dotContact] = [dotContact] ∧
    ¬ specMatches "5.5" none dotContact := by
  constructor
  · rfl
  · rintro ⟨h1, _⟩
    rcases h1 with h | ⟨n, hn, _⟩ | ⟨k, _, v, hv, _⟩
    · exact absurd h (by decide)
    · exact Option.noConfusion hn
    · exact Option.noConfusion hv

/-- Claim C7 as amended: for every search term free of regex
metacharacters, the contact listing returns exactly the contacts matched by
the case-insensitive substring predicate over phone, customer name and the
enumerated attribute keys, with an exactly-matched status filter when one
is supplied, ordered by created_at descending and paginated by skip and
limit; a term containing metacharacters is interpreted as a regex instead. -/
theorem search_filter_spec :
    ∀ (skip limit : Nat) (term : String) (statusF : Option String)
      (store : List Contact),
      regexFree term →
      (statusF = none ∨ ∃ st, statusF = some st ∧ st ≠ "") →
      ∃ l : List Contact,
        get_contacts skip limit (some term) statusF store = (l.drop skip).take limit ∧
        List.Perm l (store.filter (contactsQuery (some term) statusF)) ∧
        l.Sorted createdDesc ∧
        ∀ c : Contact,
          contactsQuery (some term) statusF c = true ↔ specMatches term statusF c := by
  intro skip limit term statusF store hfree hstat
  refine ⟨(store.filter (contactsQuery (some term) statusF)).insertionSort createdDesc,
    rfl, List.perm_insertionSort _ _, List.sorted_insertionSort _ _, ?_⟩
  intro c
  have hmatch : matchesSearch term c = true ↔
      (containsCI term c.phone = true ∨
       (∃ n, c.customer_name = some n ∧ containsCI term n = true) ∨
       (∃ k, k ∈ data_fields ∧ ∃ v, List.lookup k c.data = some v ∧
          containsCI term v = true)) := by
    rw [matchesSearch_iff term c]
    simp only [regexMatchI_eq_containsCI hfree]
  rcases hstat with rfl | ⟨st, rfl, hne⟩
  · by_cases hterm : term = ""
    · subst hterm
      simp only [contactsQuery, specMatches, ne_eq, not_true_eq_false, if_false,
        Bool.and_true]
      constructor
      · intro _
        refine ⟨Or.inl (containsCI_empty c.phone), ?_⟩
        intro st h
        exact absurd h (by simp)
      · intro _
        trivial
    · simp only [contactsQuery, specMatches, ne_eq, hterm, not_false_eq_true, if_true,
        Bool.and_true]
      constructor
      · intro h
        refine ⟨hmatch.mp h, ?_⟩
        intro st h2
        exact absurd h2 (by simp)
      · intro h
        exact hmatch.mpr h.1
  · by_cases hterm : term = ""
    · subst hterm
      simp only [contactsQuery, specMatches, ne_eq, not_true_eq_false, if_false,
        hne, not_false_eq_true, if_true, Bool.true_and, beq_iff_eq]
      constructor
      · intro h
        refine ⟨Or.inl (containsCI_empty c.phone), ?_⟩
        intro st2 h2 _
        rw [← Option.some_inj.mp h2]
        exact h
      · intro h
        exact h.2 st rfl hne
    · simp only [contactsQuery, specMatches, ne_eq, hterm, not_false_eq_true, if_true,
        hne, Bool.and_eq_true, beq_iff_eq]
      constructor
      · intro h
        refine ⟨hmatch.mp h.1, ?_⟩
        intro st2 h2 _
        rw [← Option.some_inj.mp h2]
        exact h.2
      · intro h
        exact ⟨hmatch.mpr h.1, h.2 st rfl hne⟩

/-- Witness for the amended claim C7: the theorem applied to a one-contact
store with the metacharacter-free search term bob and no status filter. -/
theorem search_filter_spec_witness :
    ∃ l : List Contact,
      get_contacts 0 10 (some "bob") none [contactC1] = (l.drop 0).take 10 ∧
      List.Perm l ([contactC1].filter (contactsQuery (some "bob") none)) ∧
      l.Sorted createdDesc ∧
      ∀ c : Contact,
        contactsQuery (some "bob") none c = true ↔ specMatches "bob" none c :=
  search_filter_spec 0 10 "bob" none [contactC1] (by decide) (Or.inl rfl)
